import Mathlib

/-
Verification of the VAST request validator (main.py) against its
natural-language specification.  The Python source is shallowly embedded:
the parameter registry, the query-string scanner, the per-value type
checks and the tier loop of VastRequestValidator.validate_vast_request are
translated into executable Lean definitions, and the spec claims are
settled as theorems about those definitions.

Modelling notes.
* Strings are Lean strings; all claim-relevant inputs are ASCII, and the
  few CPython behaviours that differ on non-ASCII input (unicode decimal
  digits accepted by int() and by the regex class backslash-d, unicode
  whitespace stripped by int()) are outside the modelled fragment; the
  theorems that depend on value parsing therefore carry an ASCII
  hypothesis.
* Percent-decoding (urllib.parse.unquote) is modelled bytewise: a percent
  sign followed by two hex digits becomes the character of that byte
  value, anything else is kept verbatim.  CPython additionally recombines
  consecutive decoded bytes into UTF-8 characters; no theorem below
  depends on a decoded value, only on the set of parameter names, so this
  difference is immaterial here.  The model is a total function, which is
  the shallow rendering of "unquote never raises".
-/

namespace VastCheck

/-- A single quote character, used to build the source messages without a
quote character appearing literally in this file. -/
def sq : String := "\x27"

/-- Character class of the regex group ([a-zA-Z0-9_]+) used for parameter
names. -/
def isWordChar (c : Char) : Bool :=
  c.isAlpha || c.isDigit || c = '_'

/-- ASCII whitespace stripped by CPython int() parsing. -/
def isAsciiWs (c : Char) : Bool :=
  c = ' ' || c = '\t' || c = '\n' || c = '\r' || c = '\x0b' || c = '\x0c'

/-- Strip leading and trailing ASCII whitespace. -/
def trimWs (l : List Char) : List Char :=
  ((l.dropWhile isAsciiWs).reverse.dropWhile isAsciiWs).reverse

/-- Drop one leading sign character, as in CPython number parsing. -/
def signBody : List Char → List Char
  | '+' :: r => r
  | '-' :: r => r
  | r => r

/-- Tail of a digit run in CPython int() parsing: after the first digit,
digits may follow, and an underscore is only allowed when immediately
followed by another digit. -/
def digitsRest : List Char → Bool
  | [] => true
  | c :: r =>
    if c = '_' then
      match r with
      | c2 :: r2 => c2.isDigit && digitsRest r2
      | [] => false
    else c.isDigit && digitsRest r

/-- A digit run in CPython int() parsing: one digit, then digitsRest. -/
def digitsU : List Char → Bool
  | [] => false
  | c :: r => c.isDigit && digitsRest r

/-- Embedding of the success of the CPython call int(value) on ASCII
input: optional surrounding whitespace, an optional sign, then base-10
digits with single underscores allowed between digits. -/
def pyIntAccepts (s : String) : Bool :=
  digitsU (signBody (trimWs s.toList))

/-- The head-is-x continuation used to embed the literal x of the size
regex: succeeds when the list starts with x and the continuation accepts
the remainder. -/
def headXThen (l : List Char) (k : List Char → Bool) : Bool :=
  match l with
  | c :: r => (c = 'x') && k r
  | [] => false

/-- Embedding of the anchored body of the pattern backslash-d-plus x
backslash-d-plus: a nonempty digit run, the letter x, then a nonempty
digit run filling the rest of the list.  The scanner form (takeWhile and
dropWhile on isDigit) mirrors how the regex engine consumes the input. -/
def sizeRegexCore (l : List Char) : Bool :=
  !(l.takeWhile Char.isDigit).isEmpty &&
    headXThen (l.dropWhile Char.isDigit)
      (fun rest => !rest.isEmpty && rest.all Char.isDigit)

/-- Embedding of re.match on the size pattern anchored with a dollar: in
CPython the dollar also matches just before a single trailing newline, so
the value passes when its character list matches the core pattern, or
when it ends in a newline whose prefix matches the core pattern. -/
def pySizeMatches (s : String) : Bool :=
  sizeRegexCore s.toList ||
    ((s.toList.getLast? == some '\n') && sizeRegexCore s.toList.dropLast)

/-- Hex digit value, both cases, as accepted by urllib.parse.unquote. -/
def hexVal (c : Char) : Option Nat :=
  if '0' ≤ c ∧ c ≤ '9' then some (c.toNat - '0'.toNat)
  else if 'a' ≤ c ∧ c ≤ 'f' then some (c.toNat - 'a'.toNat + 10)
  else if 'A' ≤ c ∧ c ≤ 'F' then some (c.toNat - 'A'.toNat + 10)
  else none

/-- Bytewise model of urllib.parse.unquote: a percent sign followed by
two hex digits decodes to that byte, anything else is copied through.
Total by construction, mirroring that unquote never raises. -/
def pyUnquote : List Char → List Char
  | '%' :: a :: b :: rest =>
    match hexVal a, hexVal b with
    | some x, some y => Char.ofNat (16 * x + y) :: pyUnquote rest
    | _, _ => '%' :: pyUnquote (a :: b :: rest)
  | c :: rest => c :: pyUnquote rest
  | [] => []

/-- String-level wrapper of pyUnquote. -/
def pyUnquoteS (s : String) : String :=
  ⟨pyUnquote s.toList⟩

/-- One attempt of the finditer regex at the current position: a nonempty
run of word characters, an equals sign, then the value running to the
next ampersand.  Returns the captured name, the captured value and the
remainder of the input after the match. -/
def tryMatch (l : List Char) : Option (String × String × List Char) :=
  let w := l.takeWhile isWordChar
  if w.isEmpty then none
  else
    match l.drop w.length with
    | '=' :: r =>
      let v := r.takeWhile (fun c => c ≠ '&')
      some (⟨w⟩, ⟨v⟩, r.drop v.length)
    | _ => none

/-- Fuelled scan embedding re.finditer: at each position try the pattern;
on success emit the pair and resume after the match, on failure advance
one character.  Every step consumes at least one character, so fuel equal
to the length of the input never runs out. -/
def findParamsAux : Nat → List Char → List (String × String)
  | 0, _ => []
  | _ + 1, [] => []
  | fuel + 1, c :: rest =>
    match tryMatch (c :: rest) with
    | some (n, v, rest2) => (n, v) :: findParamsAux fuel rest2
    | none => findParamsAux fuel rest

/-- All name-value pairs matched by finditer over the raw request. -/
def findParams (s : String) : List (String × String) :=
  findParamsAux s.toList.length s.toList

/-- Python dict assignment on an insertion-ordered association list: an
existing key keeps its position and gets the new value, a new key is
appended at the end. -/
def dictInsert : List (String × String) → String → String → List (String × String)
  | [], k, v => [(k, v)]
  | (k', v') :: rest, k, v =>
    if k' = k then (k, v) :: rest else (k', v') :: dictInsert rest k v

/-- The present-parameters dict: every matched pair is stored, with the
value percent-decoded first when decode_params is set. -/
def buildPresent (pairs : List (String × String)) (dec : Bool) : List (String × String) :=
  pairs.foldl (fun d nv => dictInsert d nv.1 (if dec then pyUnquoteS nv.2 else nv.2)) []

/-- Scheme characters allowed by urllib.parse after the first letter. -/
def isSchemeChar (c : Char) : Bool :=
  c.isAlpha || c.isDigit || c = '+' || c = '-' || c = '.'

/-- Scheme splitting of urllib.parse.urlsplit: a colon at a positive
index whose prefix starts with a letter and consists of scheme characters
yields the lowercased scheme and the remainder after the colon. -/
def splitScheme (l : List Char) : Option (List Char × List Char) :=
  match l.findIdx? (fun c => c = ':') with
  | none => none
  | some i =>
    let sch := l.take i
    match sch with
    | [] => none
    | c :: _ =>
      if c.isAlpha && sch.all isSchemeChar then
        some (sch.map Char.toLower, l.drop (i + 1))
      else none

/-- Netloc extraction of urllib.parse.urlsplit: when the rest after the
scheme starts with two slashes, the netloc runs to the next slash,
question mark or hash. -/
def netlocOf : List Char → List Char
  | '/' :: '/' :: r => r.takeWhile (fun c => c ≠ '/' && c ≠ '?' && c ≠ '#')
  | _ => []

/-- Embedding of VastRequestValidator.validate_url: urlparse the value,
require an http or https scheme and a nonempty netloc; the ValueError
raised by urlsplit on a netloc with unbalanced square brackets is caught
and yields false. -/
def validate_url (s : String) : Bool :=
  match splitScheme s.toList with
  | none => false
  | some (sch, rest) =>
    let nl := netlocOf rest
    if (nl.contains '[' != nl.contains ']') then false
    else (sch = "http".toList || sch = "https".toList) && !nl.isEmpty

/-- Type descriptors of the parameter registry. -/
inductive PType where
  | int
  | url
  | size
  | bool
  | str
  | enum (allowed : List String)
deriving DecidableEq

/-- An entry of the issue list: the dict with keys parameter, type and
message built by the source; the dict key named type is rendered here as
the field kind. -/
structure Issue where
  parameter : String
  kind : String
  message : String
deriving DecidableEq, Repr

/-- Shorthand for an issue of kind invalid. -/
def mkInv (p msg : String) : Issue :=
  ⟨p, "invalid", msg⟩

/-- Embedding of the inner function validate_param: an empty value is
always invalid and short-circuits; otherwise the declared type selects
the check; a value of declared type str (or any type matching no branch)
is accepted. -/
def validate_param (param : String) (d : PType) (value : String) : List Issue :=
  if value = "" then
    [mkInv param "Parameter value is empty"]
  else
    match d with
    | .int =>
      if pyIntAccepts value then []
      else [mkInv param ("Expected integer, got " ++ sq ++ value ++ sq)]
    | .url =>
      if validate_url value then []
      else [mkInv param ("Invalid URL: " ++ sq ++ value ++ sq)]
    | .enum allowed =>
      if value ∈ allowed then []
      else [mkInv param ("Invalid value. Allowed values: " ++ String.intercalate ", " allowed)]
    | .size =>
      if pySizeMatches value then []
      else [mkInv param "Expected format WIDTHxHEIGHT (e.g., 640x480)"]
    | .bool =>
      if value = "0" || value = "1" then []
      else [mkInv param ("Expected 0 or 1, got " ++ sq ++ value ++ sq)]
    | .str => []

/-- The three tiers of parameter rules of one implementation type, in the
insertion order of the source dictionaries. -/
structure ContextRules where
  required : List (String × PType)
  progRequired : List (String × PType)
  progRecommended : List (String × PType)
deriving DecidableEq

/-- The enum of the env parameter. -/
def envEnum : PType := .enum ["vp", "instream", "outstream"]

/-- The enum of the output parameter. -/
def outputEnum : PType := .enum ["vast", "xml_vast2", "xml_vast3", "xml_vast4"]

/-- The enum of the vpos parameter. -/
def vposEnum : PType := .enum ["preroll", "midroll", "postroll", "1", "2", "3", "0"]

/-- Registry entry for the web implementation type. -/
def webRules : ContextRules where
  required := [("correlator", .int), ("description_url", .url), ("env", envEnum),
    ("gdfp_req", .int), ("iu", .str), ("output", outputEnum), ("sz", .size),
    ("unviewed_position_start", .int), ("url", .url), ("vpmute", .bool)]
  progRequired := [("ott_placement", .int), ("plcmt", .int), ("vpa", .bool)]
  progRecommended := [("aconp", .bool), ("dth", .int), ("givn", .str), ("hl", .str),
    ("omid_p", .str), ("vconp", .bool), ("vid_d", .int), ("vpos", vposEnum),
    ("wta", .int)]

/-- Registry entry for the app implementation type. -/
def appRules : ContextRules where
  required := [("correlator", .int), ("description_url", .url), ("env", envEnum),
    ("gdfp_req", .int), ("iu", .str), ("output", outputEnum), ("sz", .size),
    ("unviewed_position_start", .int), ("url", .url), ("vpmute", .bool)]
  progRequired := [("idtype", .int), ("is_lat", .bool), ("ott_placement", .int),
    ("plcmt", .int), ("rdid", .str), ("vpa", .bool)]
  progRecommended := [("aconp", .bool), ("an", .str), ("dth", .int), ("givn", .str),
    ("hl", .str), ("msid", .str), ("omid_p", .str), ("pvid", .str), ("sid", .str),
    ("vconp", .bool), ("vid_d", .int), ("vpos", vposEnum), ("wta", .int)]

/-- Registry entry for the ctv implementation type. -/
def ctvRules : ContextRules where
  required := [("correlator", .int), ("env", envEnum), ("gdfp_req", .int),
    ("iu", .str), ("output", outputEnum), ("sz", .size), ("url", .url)]
  progRequired := [("idtype", .int), ("is_lat", .bool), ("ott_placement", .int),
    ("plcmt", .int), ("rdid", .str), ("vpa", .bool), ("vpmute", .bool)]
  progRecommended := [("aconp", .bool), ("an", .str), ("dth", .int), ("givn", .str),
    ("hl", .str), ("msid", .str), ("omid_p", .str), ("sid", .str), ("vconp", .bool),
    ("vid_d", .int), ("vpos", vposEnum), ("wta", .int)]

/-- Registry entry for the audio implementation type. -/
def audioRules : ContextRules where
  required := [("ad_type", .str), ("correlator", .int), ("env", envEnum),
    ("gdfp_req", .int), ("iu", .str), ("output", outputEnum), ("url", .url)]
  progRequired := [("idtype", .int), ("is_lat", .bool), ("plcmt", .int),
    ("rdid", .str), ("vpa", .bool), ("vpmute", .bool)]
  progRecommended := [("aconp", .bool), ("an", .str), ("dth", .int), ("givn", .str),
    ("hl", .str), ("msid", .str), ("omid_p", .str), ("sid", .str), ("vconp", .bool),
    ("vpos", vposEnum), ("wta", .int)]

/-- Registry entry for the doh implementation type. -/
def dohRules : ContextRules where
  required := [("correlator", .int), ("env", envEnum), ("gdfp_req", .int),
    ("iu", .str), ("output", outputEnum), ("sz", .size), ("url", .url),
    ("vpmute", .bool)]
  progRequired := [("idtype", .int), ("is_lat", .bool), ("plcmt", .int),
    ("rdid", .str), ("sid", .str), ("venuetype", .int)]
  progRecommended := [("aconp", .bool), ("an", .str), ("dth", .int), ("givn", .str),
    ("hl", .str), ("msid", .str), ("omid_p", .str)]

/-- The keys of param_rules in insertion order. -/
def contextNames : List String := ["web", "app", "ctv", "audio", "doh"]

/-- Lookup of param_rules by implementation type. -/
def rulesFor (t : String) : Option ContextRules :=
  if t = "web" then some webRules
  else if t = "app" then some appRules
  else if t = "ctv" then some ctvRules
  else if t = "audio" then some audioRules
  else if t = "doh" then some dohRules
  else none

/-- The message of the unknown-implementation-type issue. -/
def implTypeMsg (t : String) : String :=
  "Invalid implementation type: " ++ sq ++ t ++ sq ++ ". Allowed types are: "
    ++ String.intercalate ", " contextNames

/-- Every parameter name declared in any tier of a context. -/
def declaredKeys (r : ContextRules) : List String :=
  (r.required ++ r.progRequired ++ r.progRecommended).map Prod.fst

/-- One pass of the tier loop body: for each declared parameter of the
tier, an absent parameter gets a missing issue when the tier is enforced,
and a present parameter is value-checked by validate_param. -/
def checkTier (present : List (String × String)) (tier : List (String × PType))
    (missingMsg : String) (isRequired : Bool) : List Issue :=
  match tier with
  | [] => []
  | (p, d) :: rest =>
    (match List.lookup p present with
     | none => if isRequired then [⟨p, "missing", missingMsg⟩] else []
     | some v => validate_param p d v) ++ checkTier present rest missingMsg isRequired

/-- Embedding of VastRequestValidator.validate_vast_request.  An unknown
implementation type returns immediately with the single invalid issue; a
known one parses the raw request into the present dict and then runs the
three tiers: required is always enforced, programmatic_required is
enforced when is_programmatic is set and skipped entirely otherwise (the
continue in the source), and programmatic_recommended is never enforced
but its present parameters are value-checked.  The warnings list of the
source stays empty, so the returned issue list is just the errors. -/
def validate_vast_request (raw t : String) (prog dec : Bool) :
    List (String × String) × List Issue :=
  match rulesFor t with
  | none => ([], [⟨"implementation_type", "invalid", implTypeMsg t⟩])
  | some r =>
    let present := buildPresent (findParams raw) dec
    (present,
      checkTier present r.required "Missing required parameter" true
        ++ (if prog then
              checkTier present r.progRequired "Missing required programmatic parameter" true
            else [])
        ++ checkTier present r.progRecommended
            "Recommended programmatic parameter not found" false)

/-! Spec-side predicates.  These are written from the wording of the
specification, independently of the scanner definitions above, so that
the claims comparing the code to the spec are not vacuous. -/

/-- Spec-side strict integer syntax: an optional sign followed directly
by one or more base-10 digits, with no surrounding whitespace. -/
def specIntStrict (s : String) : Bool :=
  match s.toList with
  | '+' :: r => !r.isEmpty && r.all Char.isDigit
  | '-' :: r => !r.isEmpty && r.all Char.isDigit
  | r => !r.isEmpty && r.all Char.isDigit

/-- Split a character list on a separator character; always returns at
least one (possibly empty) group. -/
def splitOnChar (sep : Char) : List Char → List (List Char)
  | [] => [[]]
  | c :: r =>
    if c = sep then [] :: splitOnChar sep r
    else
      match splitOnChar sep r with
      | h :: t => (c :: h) :: t
      | [] => [[c]]

/-- A nonempty all-digit group. -/
def grpOk (g : List Char) : Bool :=
  !g.isEmpty && g.all Char.isDigit

/-- Spec-side reading of digits with single underscores between digits:
splitting on underscores yields only nonempty all-digit groups. -/
def groupsAll (l : List Char) : Bool :=
  (splitOnChar '_' l).all grpOk

/-- Spec-side amended integer syntax: after stripping surrounding
whitespace and an optional sign, the rest is digit groups separated by
single underscores. -/
def specIntAmended (s : String) : Bool :=
  groupsAll (signBody (trimWs s.toList))

/-- Spec-side exact size syntax, read as the claim words it: everything
up to the first letter x is a nonempty digit run, an x follows, and the
rest is a nonempty digit run, with nothing else. -/
def specSizeExact (l : List Char) : Bool :=
  !(l.takeWhile (fun c => c ≠ 'x')).isEmpty &&
    (l.takeWhile (fun c => c ≠ 'x')).all Char.isDigit &&
    headXThen (l.dropWhile (fun c => c ≠ 'x'))
      (fun b => !b.isEmpty && b.all Char.isDigit)

/-- Spec-side amended size syntax: the exact digits-x-digits shape, or
that shape followed by one trailing newline. -/
def specSizeAmended (s : String) : Bool :=
  specSizeExact s.toList ||
    ((s.toList.getLast? == some '\n') && specSizeExact s.toList.dropLast)

/-! Equivalence of the scanner embeddings with the spec-side readings. -/

theorem splitOnChar_ne_nil (sep : Char) (l : List Char) : splitOnChar sep l ≠ [] := by
  cases l with
  | nil => simp [splitOnChar]
  | cons c r =>
    unfold splitOnChar
    split
    · simp
    · split <;> simp

theorem splitOnChar_cons_self (sep : Char) (r : List Char) :
    splitOnChar sep (sep :: r) = [] :: splitOnChar sep r := by
  rw [splitOnChar.eq_2, if_pos rfl]

theorem splitOnChar_cons_ne {sep c : Char} (r : List Char) (hc : c ≠ sep) :
    splitOnChar sep (c :: r) =
      (c :: (splitOnChar sep r).headI) :: (splitOnChar sep r).tail := by
  rw [splitOnChar.eq_2, if_neg hc]
  cases h : splitOnChar sep r with
  | nil => exact absurd h (splitOnChar_ne_nil _ _)
  | cons a b => simp

theorem digitsRest_cons_ne {c : Char} (r : List Char) (hc : c ≠ '_') :
    digitsRest (c :: r) = (c.isDigit && digitsRest r) := by
  cases r with
  | nil => rw [digitsRest.eq_3, if_neg hc, digitsRest.eq_1]
  | cons c2 r2 => rw [digitsRest.eq_2, if_neg hc]

theorem digitsRest_eq_groups (l : List Char) :
    digitsRest l =
      ((splitOnChar '_' l).headI.all Char.isDigit &&
        (splitOnChar '_' l).tail.all grpOk) := by
  have key : ∀ n (l : List Char), l.length ≤ n →
      digitsRest l =
        ((splitOnChar '_' l).headI.all Char.isDigit &&
          (splitOnChar '_' l).tail.all grpOk) := by
    intro n
    induction n with
    | zero =>
      intro l hl
      have : l = [] := by
        cases l with
        | nil => rfl
        | cons c r => simp at hl
      subst this
      simp [digitsRest, splitOnChar]
    | succ n ih =>
      intro l hl
      cases l with
      | nil => simp [digitsRest, splitOnChar]
      | cons c r =>
        by_cases hc : c = '_'
        · subst hc
          rw [splitOnChar_cons_self]
          cases r with
          | nil =>
            simp [digitsRest, splitOnChar, grpOk]
          | cons c2 r2 =>
            have hstep : digitsRest ('_' :: c2 :: r2) = (c2.isDigit && digitsRest r2) := by
              rw [digitsRest.eq_2, if_pos rfl]
            rw [hstep]
            by_cases hc2 : c2 = '_'
            · subst hc2
              rw [splitOnChar_cons_self]
              simp [grpOk]
            · rw [splitOnChar_cons_ne r2 hc2]
              have ih2 := ih r2 (by simp at hl; omega)
              rw [ih2]
              simp [grpOk, Bool.and_assoc]
        · rw [digitsRest_cons_ne r hc, splitOnChar_cons_ne r hc]
          have ih2 := ih r (by simp at hl; omega)
          rw [ih2]
          simp [grpOk, Bool.and_assoc]
  exact key l.length l le_rfl

theorem digitsU_eq_groupsAll (l : List Char) : digitsU l = groupsAll l := by
  cases l with
  | nil => simp [digitsU, groupsAll, splitOnChar, grpOk]
  | cons c r =>
    by_cases hc : c = '_'
    · subst hc
      have h1 : digitsU ('_' :: r) = false := by simp [digitsU]
      rw [h1]
      unfold groupsAll
      rw [splitOnChar_cons_self]
      simp [grpOk]
    · unfold groupsAll
      rw [digitsU.eq_2, splitOnChar_cons_ne r hc]
      cases ht : splitOnChar '_' r with
      | nil => exact absurd ht (splitOnChar_ne_nil _ _)
      | cons h' t' =>
        rw [digitsRest_eq_groups r, ht]
        simp [grpOk, Bool.and_assoc]

theorem pyInt_eq_specAmended (s : String) : pyIntAccepts s = specIntAmended s := by
  unfold pyIntAccepts specIntAmended
  exact digitsU_eq_groupsAll _

theorem sizeScan_shift (k : List Char → Bool) (r : List Char) :
    headXThen (r.dropWhile Char.isDigit) k =
      ((r.takeWhile (fun c => c ≠ 'x')).all Char.isDigit &&
        headXThen (r.dropWhile (fun c => c ≠ 'x')) k) := by
  induction r with
  | nil => simp [headXThen]
  | cons c r ih =>
    by_cases hx : c = 'x'
    · subst hx
      have hdx : Char.isDigit 'x' = false := by decide
      simp [List.dropWhile_cons, List.takeWhile_cons, hdx, headXThen]
    · by_cases hd : c.isDigit
      · simp [List.dropWhile_cons, List.takeWhile_cons, hd, hx, ih]
      · simp [List.dropWhile_cons, List.takeWhile_cons, hd, hx, headXThen]

theorem sizeCore_eq_spec (l : List Char) : sizeRegexCore l = specSizeExact l := by
  cases l with
  | nil => simp [sizeRegexCore, specSizeExact, headXThen]
  | cons c r =>
    by_cases hx : c = 'x'
    · subst hx
      have hdx : Char.isDigit 'x' = false := by decide
      simp [sizeRegexCore, specSizeExact, List.takeWhile_cons, hdx]
    · by_cases hd : c.isDigit
      · simp [sizeRegexCore, specSizeExact, List.takeWhile_cons, List.dropWhile_cons,
          hd, hx, sizeScan_shift]
      · simp [sizeRegexCore, specSizeExact, List.takeWhile_cons, hd, hx]

theorem pySize_eq_specAmended (s : String) : pySizeMatches s = specSizeAmended s := by
  unfold pySizeMatches specSizeAmended
  rw [sizeCore_eq_spec, sizeCore_eq_spec]

/-! Structural lemmas about the tier loop and the present dict. -/

theorem validate_param_name (p : String) (d : PType) (v : String) (i : Issue)
    (h : i ∈ validate_param p d v) : i.parameter = p := by
  by_cases hv : v = ""
  · simp [validate_param, hv, mkInv] at h
    simp [h]
  · cases d <;> simp only [validate_param, if_neg hv] at h <;>
      first
      | (split at h <;> simp_all [mkInv])
      | simp_all [mkInv]

theorem checkTier_name (present : List (String × String)) (tier : List (String × PType))
    (m : String) (req : Bool) (i : Issue) (h : i ∈ checkTier present tier m req) :
    i.parameter ∈ tier.map Prod.fst := by
  induction tier with
  | nil => simp [checkTier] at h
  | cons pd rest ih =>
    obtain ⟨p, d⟩ := pd
    simp only [checkTier] at h
    rw [List.mem_append] at h
    rcases h with h | h
    · cases hl : List.lookup p present with
      | none =>
        simp only [hl] at h
        split at h
        · simp at h
          simp [h]
        · simp at h
      | some v =>
        simp only [hl] at h
        simp [validate_param_name p d v i h]
    · simp [ih h]

theorem checkTier_absent (present : List (String × String)) (tier : List (String × PType))
    (m : String) (p : String) (hp : List.lookup p present = none) (i : Issue)
    (h : i ∈ checkTier present tier m false) : i.parameter ≠ p := by
  induction tier with
  | nil => simp [checkTier] at h
  | cons pd rest ih =>
    obtain ⟨q, d⟩ := pd
    simp only [checkTier] at h
    rw [List.mem_append] at h
    rcases h with h | h
    · cases hl : List.lookup q present with
      | none =>
        simp only [hl] at h
        simp at h
      | some v =>
        simp only [hl] at h
        have hq := validate_param_name q d v i h
        intro hip
        rw [hip] at hq
        rw [← hq] at hl
        rw [hl] at hp
        exact Option.noConfusion hp
    · exact ih h

theorem checkTier_empty_mem (present : List (String × String)) (tier : List (String × PType))
    (m : String) (req : Bool) (p : String) (d : PType) (hmem : (p, d) ∈ tier)
    (hl : List.lookup p present = some "") :
    mkInv p "Parameter value is empty" ∈ checkTier present tier m req := by
  induction tier with
  | nil => simp at hmem
  | cons pd rest ih =>
    obtain ⟨q, d2⟩ := pd
    simp only [checkTier]
    rw [List.mem_append]
    rcases List.mem_cons.mp hmem with heq | hmem2
    · left
      obtain ⟨rfl, rfl⟩ : p = q ∧ d = d2 := by
        injection heq with h1 h2
        exact ⟨h1, h2⟩
      simp only [hl]
      simp [validate_param]
    · right
      exact ih hmem2

theorem keys_dictInsert (d : List (String × String)) (k v : String) :
    (dictInsert d k v).map Prod.fst =
      if k ∈ d.map Prod.fst then d.map Prod.fst else d.map Prod.fst ++ [k] := by
  induction d with
  | nil => simp [dictInsert]
  | cons kv rest ih =>
    obtain ⟨k', v'⟩ := kv
    by_cases hk : k' = k
    · subst hk
      simp [dictInsert]
    · have hk2 : ¬(k = k') := fun h => hk h.symm
      by_cases hm : k ∈ rest.map Prod.fst
      · simp [dictInsert, hk, ih, hm, hk2]
      · simp [dictInsert, hk, ih, hm, hk2]

theorem keys_foldl_insert (f g : String → String) (pairs : List (String × String)) :
    ∀ (d1 d2 : List (String × String)), d1.map Prod.fst = d2.map Prod.fst →
      (pairs.foldl (fun d nv => dictInsert d nv.1 (f nv.2)) d1).map Prod.fst =
        (pairs.foldl (fun d nv => dictInsert d nv.1 (g nv.2)) d2).map Prod.fst := by
  induction pairs with
  | nil =>
    intro d1 d2 h
    simpa using h
  | cons nv rest ih =>
    intro d1 d2 h
    simp only [List.foldl_cons]
    apply ih
    rw [keys_dictInsert, keys_dictInsert, h]

theorem mem_keys_dictInsert_self (d : List (String × String)) (k v : String) :
    k ∈ (dictInsert d k v).map Prod.fst := by
  rw [keys_dictInsert]
  split
  · assumption
  · simp

theorem mem_keys_dictInsert_mono (d : List (String × String)) (k v x : String)
    (h : x ∈ d.map Prod.fst) : x ∈ (dictInsert d k v).map Prod.fst := by
  rw [keys_dictInsert]
  split
  · exact h
  · simp [h]

theorem mem_keys_foldl_mono (f : String → String) (pairs : List (String × String)) :
    ∀ (d : List (String × String)) (x : String), x ∈ d.map Prod.fst →
      x ∈ (pairs.foldl (fun d nv => dictInsert d nv.1 (f nv.2)) d).map Prod.fst := by
  induction pairs with
  | nil =>
    intro d x h
    simpa using h
  | cons nv rest ih =>
    intro d x h
    simp only [List.foldl_cons]
    exact ih _ x (mem_keys_dictInsert_mono _ _ _ _ h)

theorem mem_keys_foldl (f : String → String) (pairs : List (String × String)) :
    ∀ (d : List (String × String)) (nv : String × String), nv ∈ pairs →
      nv.1 ∈ (pairs.foldl (fun d nv => dictInsert d nv.1 (f nv.2)) d).map Prod.fst := by
  induction pairs with
  | nil =>
    intro d nv h
    simp at h
  | cons a rest ih =>
    intro d nv h
    simp only [List.foldl_cons]
    rcases List.mem_cons.mp h with rfl | h2
    · exact mem_keys_foldl_mono f rest _ nv.1 (mem_keys_dictInsert_self _ _ _)
    · exact ih _ nv h2

/-! The claims. -/

set_option maxRecDepth 8000 in
/-- Claim C3, counterexample: the concrete web request of the spec
scenario yields zero issues, but its present-parameters map holds ten
parameters, not nine as the claim states (the query string carries ten
distinct name-value pairs). -/
theorem c3_cex :
    (validate_vast_request "correlator=123&description_url=http://example.com&env=vp&gdfp_req=1&iu=/123/example&output=vast&sz=640x480&unviewed_position_start=1&url=http://example.com&vpmute=0" "web" false false).2 = [] ∧
    (validate_vast_request "correlator=123&description_url=http://example.com&env=vp&gdfp_req=1&iu=/123/example&output=vast&sz=640x480&unviewed_position_start=1&url=http://example.com&vpmute=0" "web" false false).1.length = 10 := by
  constructor
  · decide
  · decide

set_option maxRecDepth 8000 in
/-- Claim C3 (amended): the spec scenario returns zero issues and a
present-parameters map of exactly the ten parameters of the query string,
in order. -/
theorem c3_thm :
    validate_vast_request "correlator=123&description_url=http://example.com&env=vp&gdfp_req=1&iu=/123/example&output=vast&sz=640x480&unviewed_position_start=1&url=http://example.com&vpmute=0" "web" false false =
      ([("correlator", "123"), ("description_url", "http://example.com"),
        ("env", "vp"), ("gdfp_req", "1"), ("iu", "/123/example"),
        ("output", "vast"), ("sz", "640x480"), ("unviewed_position_start", "1"),
        ("url", "http://example.com"), ("vpmute", "0")], []) := by
  decide

/-- Claim C4, counterexample: the value with a leading space is accepted
by the int check of validate_param (CPython int() strips surrounding
whitespace), while the strict spec-side syntax of the claim rejects it,
so the claimed equivalence fails. -/
theorem c4_cex :
    validate_param "correlator" PType.int " 1" = [] ∧
    specIntStrict " 1" = false := by
  constructor
  · decide
  · decide

/-- Claim C4 (amended): for every nonempty ASCII value checked against
the Int descriptor, the check succeeds exactly when, after stripping
surrounding whitespace and an optional sign, the value is base-10 digit
groups separated by single underscores (CPython int() syntax); leading
zeros and arbitrarily long digit runs are accepted. -/
theorem c4_thm (p v : String) (hne : v ≠ "")
    (hascii : v.toList.all (fun c => c.toNat < 128) = true) :
    validate_param p PType.int v = [] ↔ specIntAmended v = true := by
  simp only [validate_param, if_neg hne]
  rw [← pyInt_eq_specAmended]
  cases hb : pyIntAccepts v <;> simp [mkInv]

/-- Witness for claim C4 at the concrete value of a spaced integer. -/
theorem c4_wit :
    (" 42 " ≠ "") ∧ (" 42 ".toList.all (fun c => c.toNat < 128) = true) ∧
    (validate_param "correlator" PType.int " 42 " = [] ↔ specIntAmended " 42 " = true) :=
  ⟨by decide, by decide, c4_thm "correlator" " 42 " (by decide) (by decide)⟩

/-- Claim C5, counterexample: a size value with a trailing newline is
accepted by the size check of validate_param (the dollar anchor of the
CPython regex also matches just before a final newline), while the exact
spec-side syntax of the claim rejects it, so the claimed equivalence
fails. -/
theorem c5_cex :
    validate_param "sz" PType.size "640x480\n" = [] ∧
    specSizeExact "640x480\n".toList = false := by
  constructor
  · decide
  · decide

/-- Claim C5 (amended): for every nonempty ASCII value checked against
the Size descriptor, the check succeeds exactly when the value is
one-or-more digits, a lowercase letter x, then one-or-more digits, either
exactly or followed by one trailing newline. -/
theorem c5_thm (p v : String) (hne : v ≠ "")
    (hascii : v.toList.all (fun c => c.toNat < 128) = true) :
    validate_param p PType.size v = [] ↔ specSizeAmended v = true := by
  simp only [validate_param, if_neg hne]
  rw [← pySize_eq_specAmended]
  cases hb : pySizeMatches v <;> simp [mkInv]

/-- Witness for claim C5 at the concrete value 640x480. -/
theorem c5_wit :
    ("640x480" ≠ "") ∧ ("640x480".toList.all (fun c => c.toNat < 128) = true) ∧
    (validate_param "sz" PType.size "640x480" = [] ↔ specSizeAmended "640x480" = true) :=
  ⟨by decide, by decide, c5_thm "sz" "640x480" (by decide) (by decide)⟩

/-- Claim C6: an unknown implementation type returns immediately with an
empty present map and exactly one invalid issue for implementation_type
whose message lists the allowed types; the result does not depend on the
raw request, so no parsing of it takes place. -/
theorem c6_thm (raw t : String) (prog dec : Bool) (h : t ∉ contextNames) :
    validate_vast_request raw t prog dec =
      ([], [⟨"implementation_type", "invalid", implTypeMsg t⟩]) := by
  have hr : rulesFor t = none := by
    simp only [contextNames, List.mem_cons, List.not_mem_nil, or_false, not_or] at h
    obtain ⟨h1, h2, h3, h4, h5⟩ := h
    simp [rulesFor, h1, h2, h3, h4, h5]
  simp [validate_vast_request, hr]

/-- Witness for claim C6 at a concrete unknown implementation type. -/
theorem c6_wit :
    ("bogus" ∉ contextNames) ∧
    validate_vast_request "any=1" "bogus" true true =
      ([], [⟨"implementation_type", "invalid", implTypeMsg "bogus"⟩]) :=
  ⟨by decide, c6_thm "any=1" "bogus" true true (by decide)⟩

set_option maxRecDepth 4000 in
/-- Claim C7, counterexample: the parameter vpa is declared (in the
programmatic_required tier of the web context) and present with the empty
value, yet with the programmatic flag off validate emits no issue at all
for it, because the whole tier is skipped; the claimed unconditional
empty-value issue does not appear. -/
theorem c7_cex :
    (validate_vast_request "vpa=" "web" false false).1 = [("vpa", "")] ∧
    ("vpa", PType.bool) ∈ webRules.progRequired ∧
    (validate_vast_request "vpa=" "web" false false).2.all
      (fun i => i.parameter != "vpa") = true := by
  refine ⟨by decide, by decide, by decide⟩

/-- Claim C7 (amended): whenever a tier that validate actually processes
declares a parameter that is present with the empty value, the value
check yields exactly the single invalid issue with message Parameter
value is empty, with no type check performed, and that issue appears in
the output of the tier pass. -/
theorem c7_thm (present : List (String × String)) (tier : List (String × PType))
    (m : String) (req : Bool) (p : String) (d : PType) (hmem : (p, d) ∈ tier)
    (hl : List.lookup p present = some "") :
    validate_param p d "" = [mkInv p "Parameter value is empty"] ∧
    mkInv p "Parameter value is empty" ∈ checkTier present tier m req :=
  ⟨by simp [validate_param], checkTier_empty_mem present tier m req p d hmem hl⟩

/-- Witness for claim C7 at a concrete one-entry tier. -/
theorem c7_wit :
    (("vpa", PType.bool) ∈ [(("vpa" : String), PType.bool)]) ∧
    (List.lookup "vpa" [(("vpa" : String), "")] = some "") ∧
    (validate_param "vpa" PType.bool "" = [mkInv "vpa" "Parameter value is empty"] ∧
      mkInv "vpa" "Parameter value is empty" ∈
        checkTier [(("vpa" : String), "")] [(("vpa" : String), PType.bool)]
          "Missing required parameter" true) :=
  ⟨by decide, by decide,
    c7_thm [(("vpa" : String), "")] [(("vpa" : String), PType.bool)]
      "Missing required parameter" true "vpa" PType.bool (by decide) (by decide)⟩

/-- Claim C9: a parameter with declared type str is only ever rejected by
the empty-value check; any nonempty value yields no issue. -/
theorem c9_thm (p v : String) :
    validate_param p PType.str v =
      if v = "" then [mkInv p "Parameter value is empty"] else [] := by
  by_cases hv : v = "" <;> simp [validate_param, hv]

set_option maxRecDepth 4000 in
/-- Claim C1, counterexample: with the programmatic flag off, the
parameter plcmt (programmatic_required, type Int, web context) is present
with a value that fails the int check, yet no issue at all names plcmt:
the tier is skipped, contradicting the claim that the value is still
type-checked. -/
theorem c1_cex :
    (validate_vast_request "plcmt=abc" "web" false false).1 = [("plcmt", "abc")] ∧
    pyIntAccepts "abc" = false ∧
    (validate_vast_request "plcmt=abc" "web" false false).2.all
      (fun i => i.parameter != "plcmt") = true := by
  refine ⟨by decide, by decide, by decide⟩

/-- Claim C1 (amended): with the programmatic flag off, the whole
programmatic_required tier is skipped: a parameter declared only in that
tier receives no issue of any kind, whatever its present value, so in
particular it is never type-checked. -/
theorem c1_thm (t : String) (r : ContextRules) (h : rulesFor t = some r)
    (p : String) (hp : p ∈ r.progRequired.map Prod.fst)
    (h1 : p ∉ r.required.map Prod.fst) (h2 : p ∉ r.progRecommended.map Prod.fst)
    (raw : String) (dec : Bool) :
    (validate_vast_request raw t false dec).2.all (fun i => i.parameter != p) = true := by
  have hval : (validate_vast_request raw t false dec).2 =
      checkTier (buildPresent (findParams raw) dec) r.required
          "Missing required parameter" true
        ++ checkTier (buildPresent (findParams raw) dec) r.progRecommended
            "Recommended programmatic parameter not found" false := by
    simp [validate_vast_request, h]
  rw [hval, List.all_eq_true]
  intro i hi
  rw [List.mem_append] at hi
  rw [bne_iff_ne]
  rcases hi with hi | hi
  · intro he
    exact h1 (he ▸ checkTier_name _ _ _ _ i hi)
  · intro he
    exact h2 (he ▸ checkTier_name _ _ _ _ i hi)

/-- Witness for claim C1: web context, plcmt present with a non-integer
value, programmatic off. -/
theorem c1_wit :
    rulesFor "web" = some webRules ∧
    "plcmt" ∈ webRules.progRequired.map Prod.fst ∧
    "plcmt" ∉ webRules.required.map Prod.fst ∧
    "plcmt" ∉ webRules.progRecommended.map Prod.fst ∧
    (validate_vast_request "plcmt=1x2y" "web" false false).2.all
      (fun i => i.parameter != "plcmt") = true :=
  ⟨rfl, by decide, by decide, by decide,
    c1_thm "web" webRules rfl "plcmt" (by decide) (by decide) (by decide)
      "plcmt=1x2y" false⟩

set_option maxRecDepth 4000 in
/-- Claim C2, counterexample: on a request carrying none of the web
programmatic_recommended parameters (wta among them), the result contains
no issue with the message Recommended programmatic parameter not found:
missing recommended parameters produce no notice at all, contradicting
the claimed emission. -/
theorem c2_cex :
    List.lookup "wta" (validate_vast_request "" "web" false false).1 = none ∧
    "wta" ∈ webRules.progRecommended.map Prod.fst ∧
    (validate_vast_request "" "web" false false).2.all
      (fun i => i.message != "Recommended programmatic parameter not found") = true := by
  refine ⟨by decide, by decide, by decide⟩

/-- Claim C2 (amended): a parameter declared only in the
programmatic_recommended tier and absent from the present map produces no
issue at all; the Recommended-not-found notice is never emitted.  Present
recommended parameters are still value-checked (their failures are
ordinary invalid issues, covered by the value-check claims). -/
theorem c2_thm (t : String) (r : ContextRules) (h : rulesFor t = some r)
    (p : String) (hp : p ∈ r.progRecommended.map Prod.fst)
    (h1 : p ∉ r.required.map Prod.fst) (h2 : p ∉ r.progRequired.map Prod.fst)
    (raw : String) (prog dec : Bool)
    (habs : List.lookup p (validate_vast_request raw t prog dec).1 = none) :
    (validate_vast_request raw t prog dec).2.all (fun i => i.parameter != p) = true := by
  have hpres : (validate_vast_request raw t prog dec).1 =
      buildPresent (findParams raw) dec := by
    simp [validate_vast_request, h]
  rw [hpres] at habs
  have hval : (validate_vast_request raw t prog dec).2 =
      checkTier (buildPresent (findParams raw) dec) r.required
          "Missing required parameter" true
        ++ ((if prog then
              checkTier (buildPresent (findParams raw) dec) r.progRequired
                "Missing required programmatic parameter" true
            else [])
          ++ checkTier (buildPresent (findParams raw) dec) r.progRecommended
              "Recommended programmatic parameter not found" false) := by
    simp [validate_vast_request, h]
  rw [hval, List.all_eq_true]
  intro i hi
  rw [List.mem_append, List.mem_append] at hi
  rw [bne_iff_ne]
  rcases hi with hi | hi | hi
  · intro he
    exact h1 (he ▸ checkTier_name _ _ _ _ i hi)
  · by_cases hprog : prog
    · rw [if_pos hprog] at hi
      intro he
      exact h2 (he ▸ checkTier_name _ _ _ _ i hi)
    · rw [if_neg hprog] at hi
      exact absurd hi (List.not_mem_nil i)
  · exact checkTier_absent _ _ _ p habs i hi

/-- Witness for claim C2: web context, empty request, wta absent. -/
theorem c2_wit :
    rulesFor "web" = some webRules ∧
    "wta" ∈ webRules.progRecommended.map Prod.fst ∧
    "wta" ∉ webRules.required.map Prod.fst ∧
    "wta" ∉ webRules.progRequired.map Prod.fst ∧
    List.lookup "wta" (validate_vast_request "" "web" false false).1 = none ∧
    (validate_vast_request "" "web" false false).2.all
      (fun i => i.parameter != "wta") = true :=
  ⟨rfl, by decide, by decide, by decide, by decide,
    c2_thm "web" webRules rfl "wta" (by decide) (by decide) (by decide)
      "" false false (by decide)⟩

/-- Claim C8: with a known implementation type, turning value decoding on
changes only stored values: the lists of parameter names of the present
maps with and without decoding are identical; the bytewise decoder is a
total function, so no captured value can make it raise. -/
theorem c8_thm (raw t : String) (prog : Bool) (h : t ∈ contextNames) :
    (validate_vast_request raw t prog false).1.map Prod.fst =
      (validate_vast_request raw t prog true).1.map Prod.fst := by
  obtain ⟨r, hr⟩ : ∃ r, rulesFor t = some r := by
    simp only [contextNames, List.mem_cons, List.not_mem_nil, or_false] at h
    rcases h with rfl | rfl | rfl | rfl | rfl <;> exact ⟨_, rfl⟩
  have h1 : (validate_vast_request raw t prog false).1 =
      buildPresent (findParams raw) false := by
    simp [validate_vast_request, hr]
  have h2 : (validate_vast_request raw t prog true).1 =
      buildPresent (findParams raw) true := by
    simp [validate_vast_request, hr]
  rw [h1, h2]
  exact keys_foldl_insert (fun v => v) pyUnquoteS (findParams raw) [] [] rfl

/-- Witness for claim C8 at a concrete percent-encoded request. -/
theorem c8_wit :
    ("web" ∈ contextNames) ∧
    (validate_vast_request "a=%41&b=2&c=%zz" "web" false false).1.map Prod.fst =
      (validate_vast_request "a=%41&b=2&c=%zz" "web" false true).1.map Prod.fst :=
  ⟨by decide, c8_thm "a=%41&b=2&c=%zz" "web" false (by decide)⟩

/-- Claim C10: with a known implementation type, every matched parameter
name is stored in the present map, and every issue names a parameter
declared in one of the three tiers of that context; hence a present but
undeclared parameter never produces an issue. -/
theorem c10_thm (raw t : String) (prog dec : Bool) (r : ContextRules)
    (h : rulesFor t = some r) :
    (findParams raw).all
        (fun nv => ((validate_vast_request raw t prog dec).1.map Prod.fst).contains nv.1) = true ∧
    (validate_vast_request raw t prog dec).2.all
        (fun i => (declaredKeys r).contains i.parameter) = true := by
  have hpres : (validate_vast_request raw t prog dec).1 =
      buildPresent (findParams raw) dec := by
    simp [validate_vast_request, h]
  have hval : (validate_vast_request raw t prog dec).2 =
      checkTier (buildPresent (findParams raw) dec) r.required
          "Missing required parameter" true
        ++ ((if prog then
              checkTier (buildPresent (findParams raw) dec) r.progRequired
                "Missing required programmatic parameter" true
            else [])
          ++ checkTier (buildPresent (findParams raw) dec) r.progRecommended
              "Recommended programmatic parameter not found" false) := by
    simp [validate_vast_request, h]
  constructor
  · rw [List.all_eq_true]
    intro nv hnv
    rw [hpres]
    have := mem_keys_foldl (fun v => if dec then pyUnquoteS v else v)
      (findParams raw) [] nv hnv
    exact List.elem_iff.mpr this
  · rw [hval, List.all_eq_true]
    intro i hi
    rw [List.mem_append, List.mem_append] at hi
    have hdecl : i.parameter ∈ r.required.map Prod.fst ∨
        i.parameter ∈ r.progRequired.map Prod.fst ∨
        i.parameter ∈ r.progRecommended.map Prod.fst := by
      rcases hi with hi | hi | hi
      · exact Or.inl (checkTier_name _ _ _ _ i hi)
      · by_cases hprog : prog
        · rw [if_pos hprog] at hi
          exact Or.inr (Or.inl (checkTier_name _ _ _ _ i hi))
        · rw [if_neg hprog] at hi
          exact absurd hi (List.not_mem_nil i)
      · exact Or.inr (Or.inr (checkTier_name _ _ _ _ i hi))
    apply List.elem_iff.mpr
    simp only [declaredKeys, List.map_append, List.mem_append]
    tauto

/-- Witness for claim C10: web context with an undeclared parameter foo
present; it is stored and no issue names it. -/
theorem c10_wit :
    rulesFor "web" = some webRules ∧
    ((findParams "foo=1&correlator=abc").all
        (fun nv => ((validate_vast_request "foo=1&correlator=abc" "web" false false).1.map
          Prod.fst).contains nv.1) = true ∧
      (validate_vast_request "foo=1&correlator=abc" "web" false false).2.all
        (fun i => (declaredKeys webRules).contains i.parameter) = true) :=
  ⟨rfl, c10_thm "foo=1&correlator=abc" "web" false false webRules rfl⟩

end VastCheck
